import Mathlib

/-!
Shallow embedding of the generation-orchestration core of StudySim-AI
(src/services/geminiService.ts) and proofs about it.

Strings are modelled as `List Char`.  External effects (the remote
generation endpoint and the platform JSON parser) are passed in as
explicit function arguments, so every embedded operation is a pure,
executable Lean function of its environment.
-/

namespace StudySim

/-! ## String-search primitives

The source extracts fenced blocks with the JavaScript regexes
`/```json([\s\S]*?)```/`, `/```([\s\S]*?)```/` and `/```html([\s\S]*?)```/`
(geminiService.ts lines 64 and 300), and classifies errors with
`String.prototype.includes` (lines 17 and 521).

For a regex of the shape `LIT1([\s\S]*?)LIT2` where `LIT1` begins with
a backtick and `LIT2 = "```"`, JavaScript leftmost-then-lazy matching is
equivalent to: take the first occurrence of `LIT1`; the capture runs to
the first occurrence of `LIT2` at or after the end of `LIT1`.  (If the
first occurrence of `LIT1` has no closing `LIT2` after it, no later
occurrence can have one either, because any later occurrence of `LIT1`
itself starts with three backticks located after the first occurrence.)
`find` below returns the index of the first occurrence of a pattern.
-/

def backtick : Char := "`".toList.headD ' '

/-- The closing delimiter `LIT2` of the fence regexes. -/
def fence : List Char := "```".toList

/-- Index of the first occurrence of `pat` in a text, if any. -/
def find (pat : List Char) : List Char → Option Nat
  | [] => if pat.isEmpty then some 0 else none
  | c :: rest =>
    if pat.isPrefixOf (c :: rest) then some 0
    else (find pat rest).map (fun n => n + 1)

/-- Model of JavaScript `String.prototype.includes`. -/
def containsStr (pat s : List Char) : Bool := (find pat s).isSome

/-- Model of `text.match(/OPN([\s\S]*?)```/)`, returning the capture group:
the text between the first occurrence of `opn` and the next `` ``` ``. -/
def matchFence (opn text : List Char) : Option (List Char) :=
  match find opn text with
  | none => none
  | some i =>
    match find fence (text.drop (i + opn.length)) with
    | none => none
    | some j => some ((text.drop (i + opn.length)).take j)

/-- Opening pattern of the first regex on the fact-retrieval path. -/
def jsonFenceOpen : List Char := "```json".toList

/-- Opening pattern of the simulator-extraction regex. -/
def htmlFenceOpen : List Char := "```html".toList

/-- Model of geminiService.ts lines 64-67: try the `json`-labelled fence
regex first, then the bare fence regex, else keep the text unchanged. -/
def cleanJsonText (text : List Char) : List Char :=
  match matchFence jsonFenceOpen text with
  | some c => c
  | none =>
    match matchFence fence text with
    | some c => c
    | none => text

/-! ## Errors, responses and error classification -/

/-- A thrown JavaScript error; `message` is optional, as in
`error.message?.includes(...)`. -/
structure GenError where
  message : Option (List Char)

/-- The capability-unavailable test of geminiService.ts lines 17 and 521:
`error.message?.includes("404") || error.message?.includes("not found")`. -/
def capabilityUnavailable (e : GenError) : Bool :=
  match e.message with
  | none => false
  | some m => containsStr "404".toList m || containsStr "not found".toList m

/-- The slice of a `generateContent` response the embedded operations
read: `response.text` (optional in the SDK). -/
structure GenResponse where
  text : Option (List Char)

/-- Model of `response.text || "{}"` (line 61): `undefined` and the empty
string are falsy. -/
def textOrBrace : Option (List Char) → List Char
  | none => "\x7b\x7d".toList
  | some s => if s.isEmpty then "\x7b\x7d".toList else s

/-- Model of `response.text || "[]"` (line 345). -/
def textOrBracket : Option (List Char) → List Char
  | none => "[]".toList
  | some s => if s.isEmpty then "[]".toList else s

/-! ## JSON values

`JSON.parse` is a platform function, not repository code; it is passed to
the embedded operations as an argument `jsonParse : List Char → Option Json`
(`none` models a thrown `SyntaxError`).  The source performs no validation
of the parsed value, so the parse result is kept as a raw `Json` tree. -/

inductive Json where
  | null
  | bool (b : Bool)
  | num (n : Int)
  | str (s : List Char)
  | arr (items : List Json)
  | obj (fields : List (List Char × Json))

/-! ## getInterestingFacts (lines 31-75) -/

/-- The fixed fallback returned by the `catch` block of
`getInterestingFacts` (line 73). -/
def defaultTopicFacts : Json :=
  Json.obj
    [("facts".toList, Json.arr
        [Json.str "Learning is a journey.".toList,
         Json.str "Stay curious.".toList,
         Json.str "Knowledge is power.".toList]),
     ("searchContext".toList, Json.str [])]

/-- Model of `getInterestingFacts`: `remote` is the result of the
`ai.models.generateContent` call (line 53; `Except.error` models a
throw), `jsonParse` the platform JSON parser.  The `try/catch` makes the
function total: every failure yields `defaultTopicFacts`. -/
def getInterestingFacts (remote : Except GenError GenResponse)
    (jsonParse : List Char → Option Json) : Json :=
  match remote with
  | Except.error _ => defaultTopicFacts
  | Except.ok resp =>
    match jsonParse (cleanJsonText (textOrBrace resp.text)) with
    | some v => v
    | none => defaultTopicFacts

/-! ## generateContentWithFallback (lines 11-23) -/

/-- The fixed secondary tier of the fallback invoker (lines 18-19). -/
def flashModel : List Char := "gemini-2.5-flash".toList

/-- Model of `generateContentWithFallback`.  `call model params` is the
remote endpoint (`ai.models.generateContent({...params, model})`); the
first component of the result records every issued call as a
(model, payload) pair, in order. -/
def generateContentWithFallback {α β : Type}
    (call : List Char → α → Except GenError β)
    (model : List Char) (params : α) :
    List (List Char × α) × Except GenError β :=
  match call model params with
  | Except.ok r => ([(model, params)], Except.ok r)
  | Except.error e =>
    if capabilityUnavailable e then
      ([(model, params), (flashModel, params)], call flashModel params)
    else
      ([(model, params)], Except.error e)

/-! ## analyzeStudyTopic: request construction (lines 78-173)

The claims about this phase concern how the request is built (system
instruction, tool list, parts, reasoning budget), so the embedding
models the request value handed to `generateContentWithFallback`.
The long instruction prose is abridged (quotation marks, apostrophes and
emoji dropped); no theorem below depends on its wording, only on the
concatenation structure of lines 87-139. -/

/-- Opening segment of the Phase-1 system instruction (lines 87-91,
prose abridged). -/
def analyzeBase1 : List Char :=
  "You are StudySim AI - Phase 1: Background Processor and Architect. Your goal is to perform a DEEP, SILENT BACKGROUND ANALYSIS to create a robust SPECIFICATION for a learning module and a Real-Life Simulator.".toList

/-- Text preceding the interpolated summary in the context section
(lines 95-98). -/
def ctxPre : List Char :=
  "### CONTEXT FROM WEB SEARCH Use the following verified context as your primary source of truth: ".toList

/-- Text following the interpolated summary (lines 98-101). -/
def ctxPost : List Char :=
  " (Do not perform a new Google Search unless absolutely necessary for specific missing details).".toList

/-- Closing segment of the Phase-1 system instruction (lines 104-139,
prose abridged). -/
def analyzeBase2 : List Char :=
  "### BACKGROUND PROCESSING REQUIREMENTS (Execute Silently) ... ### OUTPUT FORMAT (The Stable Foundation) ...".toList

/-- JavaScript truthiness of an optional string (`undefined` and the
empty string are falsy), as in `if (searchContext)` (line 94) and
`searchContext ? [] : [{googleSearch: {}}]` (line 162). -/
def truthyOpt : Option (List Char) → Bool
  | none => false
  | some s => !s.isEmpty

/-- Model of the `systemPrompt` accumulation of lines 87-139: the
context section is appended exactly when `searchContext` is truthy, with
the summary interpolated into it. -/
def analyzeSystemPrompt (searchContext : Option (List Char)) : List Char :=
  analyzeBase1 ++
    (if truthyOpt searchContext then ctxPre ++ searchContext.getD [] ++ ctxPost else []) ++
    analyzeBase2

/-- A tool in the request configuration; the source only ever passes
`{googleSearch: {}}`. -/
inductive Tool where
  | googleSearch

/-- One entry of the `parts` array (text or inline media). -/
inductive Part where
  | text (t : List Char)
  | inlineData (data mimeType : List Char)

/-- The optional `mediaData` argument of `analyzeStudyTopic`. -/
structure MediaData where
  data : List Char
  mimeType : List Char

/-- Model of the `parts` construction of lines 141-157, including the
`input || "Analyze the provided media."` default. -/
def analyzeParts (input : List Char) (mediaData : Option MediaData)
    (isVideoAnalysis : Bool) : List Part :=
  (match mediaData with
   | some m =>
     [Part.inlineData m.data m.mimeType,
      Part.text (if isVideoAnalysis
        then "Analyze this video context as the primary source material.".toList
        else "Analyze this image as the primary source material.".toList)]
   | none => []) ++
  [Part.text (if input.isEmpty then "Analyze the provided media.".toList else input)]

/-- The request payload `analyzeStudyTopic` passes to the fallback
invoker (lines 165-173). -/
structure AnalyzeParams where
  systemInstruction : List Char
  tools : List Tool
  parts : List Part
  thinkingBudget : Nat

/-- Model of the request-construction part of `analyzeStudyTopic`
(lines 78-173). -/
def analyzeStudyTopicRequest (input : List Char) (mediaData : Option MediaData)
    (isVideoAnalysis : Bool) (searchContext : Option (List Char)) : AnalyzeParams :=
  { systemInstruction := analyzeSystemPrompt searchContext
    tools := if truthyOpt searchContext then [] else [Tool.googleSearch]
    parts := analyzeParts input mediaData isVideoAnalysis
    thinkingBudget := 16384 }

/-! ## generateQuiz (lines 310-351) -/

/-- Model of `generateQuiz`: `remote` is the result of the
schema-constrained `ai.models.generateContent` call (line 323),
`jsonParse` the platform JSON parser.  The `try/catch` returns `[]` on
any throw; a successful parse is returned as-is (`return
JSON.parse(jsonString)`, line 346), with no validation of item count,
option count or `correctAnswer` range. -/
def generateQuiz (remote : Except GenError GenResponse)
    (jsonParse : List Char → Option Json) : Json :=
  match remote with
  | Except.error _ => Json.arr []
  | Except.ok resp =>
    match jsonParse (textOrBracket resp.text) with
    | some v => v
    | none => Json.arr []

/-- Vocabulary of the claim (not of the source, which has no such
check): a quiz item is in range when its `correctAnswer` field indexes a
valid element of its `options` array. -/
def quizCorrectIndexInRange (item : Json) : Bool :=
  match item with
  | Json.obj fields =>
    match fields.lookup "correctAnswer".toList, fields.lookup "options".toList with
    | some (Json.num i), some (Json.arr opts) =>
      decide (0 ≤ i) && decide (i < (opts.length : Int))
    | _, _ => false
  | _ => false

/-! ## generateStudySimulator: source extraction (lines 283-306) -/

/-- Model of the tail of `generateStudySimulator` (lines 299-301):
`remote` is the result of the `generateContentWithFallback` call; on
success the first `html`-labelled fence is extracted, and absence of
such a fence yields the empty string (`match ? match[1] : ""`). -/
def generateStudySimulator (remote : Except GenError GenResponse) :
    Except GenError (List Char) :=
  match remote with
  | Except.error e => Except.error e
  | Except.ok resp =>
    match matchFence htmlFenceOpen (resp.text.getD []) with
    | some c => Except.ok c
    | none => Except.ok []

/-! ## generateVeoVideo (lines 479-526)

The submit call, the polling loop, the URI extraction and the
surrounding `try/catch` are embedded.  The environment is given by
`submit` (result of `ai.models.generateVideos`, line 509) and
`fetch` (the n-th `ai.operations.getVideosOperation` re-fetch,
line 513); either may throw.  The source loop has no bound, so the
embedding takes a fuel argument: exhausted fuel models a run that is
still looping, reported as `none`.  The first component of each result
is the trace of sleeps and re-fetches the loop performed. -/

/-- `video?: { uri?: string }` of a generated video. -/
structure VideoFile where
  uri : Option (List Char)

/-- One element of `response?.generatedVideos`. -/
structure GeneratedVideo where
  video : Option VideoFile

/-- `operation.response` payload. -/
structure VeoResponse where
  generatedVideos : Option (List GeneratedVideo)

/-- A long-running video operation as read by the poller. -/
structure Operation where
  done : Bool
  response : Option VeoResponse

/-- Observable actions of one polling round (line 512-513). -/
inductive VeoAction where
  | sleep (ms : Nat)
  | refetch

/-- The trace of a single polling round: a fixed 5000 ms sleep, then a
status re-fetch. -/
def sleepRefetch : List VeoAction := [VeoAction.sleep 5000, VeoAction.refetch]

/-- Model of the `while (!operation.done)` loop (lines 511-514).
Arguments after `fetch`: remaining fuel, current operation, index of the
next re-fetch.  Result: the action trace, and `none` when fuel ran out
while the loop was still going, `some (Except.error e)` when a re-fetch
threw, `some (Except.ok op)` when the loop exited with a done
operation. -/
def pollLoop (fetch : Nat → Except GenError Operation) :
    Nat → Operation → Nat → List VeoAction × Option (Except GenError Operation)
  | 0, op, _ =>
    if op.done then ([], some (Except.ok op)) else ([], none)
  | fuel + 1, op, i =>
    if op.done then ([], some (Except.ok op))
    else
      match fetch i with
      | Except.error e => (sleepRefetch, some (Except.error e))
      | Except.ok next =>
        let p := pollLoop fetch fuel next (i + 1)
        (VeoAction.sleep 5000 :: VeoAction.refetch :: p.1, p.2)

/-- Model of `operation.response?.generatedVideos?.[0]?.video?.uri`
(line 516). -/
def extractVideoUri (op : Operation) : Option (List Char) :=
  ((op.response.bind fun r => r.generatedVideos).bind fun vs => vs.head?).bind
    fun gv => gv.video.bind fun v => v.uri

/-- The error thrown when a completed operation carries no usable result
locator (line 517). -/
def errNoUri : GenError :=
  ⟨some "Video generation failed or no URI returned".toList⟩

/-- The distinct user-actionable error substituted for
capability-unavailable failures (line 522). -/
def veoNotAvailableError : GenError :=
  ⟨some "Veo model not available with current API Key. This feature requires a specific paid tier or region.".toList⟩

/-- The `catch` block of lines 520-525: capability-unavailable errors
are replaced, every other error is re-thrown unchanged. -/
def translateVeoError (e : GenError) : GenError :=
  if capabilityUnavailable e then veoNotAvailableError else e

/-- `if (!uri) throw ...; return uri` (lines 516-519): both a missing
and an empty (falsy) locator are fatal. -/
def veoFinish (op : Operation) : Except GenError (List Char) :=
  match extractVideoUri op with
  | some u => if u.isEmpty then Except.error errNoUri else Except.ok u
  | none => Except.error errNoUri

/-- The body of the `try` block (lines 509-519): submit, poll, extract. -/
def veoTryBody (submit : Except GenError Operation)
    (fetch : Nat → Except GenError Operation) (fuel : Nat) :
    List VeoAction × Option (Except GenError (List Char)) :=
  match submit with
  | Except.error e => ([], some (Except.error e))
  | Except.ok op0 =>
    let p := pollLoop fetch fuel op0 0
    (p.1, p.2.map fun r => r.bind veoFinish)

/-- Model of `generateVeoVideo` (lines 479-526): the `try` body wrapped
in the error-translating `catch`. -/
def generateVeoVideo (submit : Except GenError Operation)
    (fetch : Nat → Except GenError Operation) (fuel : Nat) :
    List VeoAction × Option (Except GenError (List Char)) :=
  let p := veoTryBody submit fetch fuel
  (p.1, p.2.map fun r =>
    match r with
    | Except.ok u => Except.ok u
    | Except.error e => Except.error (translateVeoError e))

/-- Specification vocabulary for the polling theorems: the operation
the loop holds after `k` successful pure re-fetches, starting from
`op0` with next re-fetch index `i`. -/
def opSeqFrom (g : Nat → Operation) : Operation → Nat → Nat → Operation
  | op0, _, 0 => op0
  | _, i, k + 1 => opSeqFrom g (g i) (i + 1) k

/-! ## Concrete environments used by witnesses and counterexamples

The parse oracles below are finite restrictions of the platform
`JSON.parse`: each is defined on exactly the response text it is used
with, and maps it to the value `JSON.parse` produces on that text. -/

/-- The primary tier used by the pipeline calls (line 85). -/
def proModel : List Char := "gemini-3-pro-preview".toList

/-- A capability-unavailable error (message contains both signals). -/
def err404 : GenError := ⟨some "Requested model was not found (404)".toList⟩

/-- A hard failure that is not capability-unavailable. -/
def errQuota : GenError := ⟨some "429 RESOURCE_EXHAUSTED: quota exceeded".toList⟩

/-- An endpoint whose primary tier is unavailable and whose secondary
tier answers 7. -/
def fallbackCexCall : List Char → Unit → Except GenError Nat :=
  fun m _ => if m == flashModel then Except.ok 7 else Except.error err404

/-- An endpoint that always fails with a quota error. -/
def fallbackQuotaCall : List Char → Unit → Except GenError Nat :=
  fun _ _ => Except.error errQuota

/-- A quiz response text whose single item has `correctAnswer: 7` with
only 4 options. -/
def quizCexText : String :=
  "[\x7b\"id\":1,\"question\":\"q\",\"options\":[\"a\",\"b\",\"c\",\"d\"],\"correctAnswer\":7,\"explanation\":\"e\"\x7d]"

/-- The value `JSON.parse` yields on the single item of `quizCexText`. -/
def quizCexItem : Json :=
  Json.obj
    [("id".toList, Json.num 1),
     ("question".toList, Json.str "q".toList),
     ("options".toList, Json.arr
        [Json.str "a".toList, Json.str "b".toList,
         Json.str "c".toList, Json.str "d".toList]),
     ("correctAnswer".toList, Json.num 7),
     ("explanation".toList, Json.str "e".toList)]

/-- `JSON.parse` restricted to `quizCexText`. -/
def quizCexParse : List Char → Option Json :=
  fun s => if s = quizCexText.toList then some (Json.arr [quizCexItem]) else none

/-- A well-formed quiz item (4 options, in-range index) with the given
id and correct index. -/
def quizItemWf (id ca : Int) : Json :=
  Json.obj
    [("id".toList, Json.num id),
     ("question".toList, Json.str "q".toList),
     ("options".toList, Json.arr
        [Json.str "a".toList, Json.str "b".toList,
         Json.str "c".toList, Json.str "d".toList]),
     ("correctAnswer".toList, Json.num ca),
     ("explanation".toList, Json.str "e".toList)]

/-- A quiz response text holding exactly two well-formed items. -/
def quizTwoText : String :=
  "[\x7b\"id\":1,\"question\":\"q\",\"options\":[\"a\",\"b\",\"c\",\"d\"],\"correctAnswer\":0,\"explanation\":\"e\"\x7d,\x7b\"id\":2,\"question\":\"q\",\"options\":[\"a\",\"b\",\"c\",\"d\"],\"correctAnswer\":1,\"explanation\":\"e\"\x7d]"

/-- `JSON.parse` restricted to `quizTwoText`. -/
def quizTwoParse : List Char → Option Json :=
  fun s =>
    if s = quizTwoText.toList then some (Json.arr [quizItemWf 1 0, quizItemWf 2 1])
    else none

/-- A quiz response text holding two identical well-formed items. -/
def quizRepText : String :=
  "[\x7b\"id\":1,\"question\":\"q\",\"options\":[\"a\",\"b\",\"c\",\"d\"],\"correctAnswer\":0,\"explanation\":\"e\"\x7d,\x7b\"id\":1,\"question\":\"q\",\"options\":[\"a\",\"b\",\"c\",\"d\"],\"correctAnswer\":0,\"explanation\":\"e\"\x7d]"

/-- `JSON.parse` restricted to `quizRepText`. -/
def quizRepParse : List Char → Option Json :=
  fun s =>
    if s = quizRepText.toList then some (Json.arr (List.replicate 2 (quizItemWf 1 0)))
    else none

/-- `JSON.parse` restricted to the bare-object text. -/
def emptyObjParse : List Char → Option Json :=
  fun s => if s = "\x7b\x7d".toList then some (Json.obj []) else none

/-- A not-yet-done operation. -/
def opPending : Operation := ⟨false, none⟩

/-- A done operation carrying a result locator. -/
def opDoneWithUri : Operation :=
  ⟨true, some ⟨some [⟨some ⟨some "https://video.example/v1".toList⟩⟩]⟩⟩

/-- A done operation carrying no result locator. -/
def opDoneNoUri : Operation := ⟨true, none⟩

/-- A re-fetch environment that reports the job done with a locator. -/
def veoG : Nat → Operation := fun _ => opDoneWithUri

/-! ## Helper lemmas about the string-search primitives -/

theorem isPrefixOf_append_self (p x : List Char) : p.isPrefixOf (p ++ x) = true := by
  induction p with
  | nil => simp [List.isPrefixOf]
  | cons a as ih => simp [List.isPrefixOf, ih]

theorem find_append_left (pat a b : List Char) (hpat : ∃ t, pat = backtick :: t)
    (ha : ∀ c ∈ a, c ≠ backtick) :
    find pat (a ++ b) = (find pat b).map (fun n => n + a.length) := by
  obtain ⟨t, rfl⟩ := hpat
  induction a with
  | nil => simp
  | cons c a ih =>
    have hc : c ≠ backtick := ha c (by simp)
    have hcb : ¬(backtick = c) := fun h => hc h.symm
    have ih2 := ih (fun x hx => ha x (by simp [hx]))
    have hstep : find (backtick :: t) ((c :: a) ++ b)
        = (find (backtick :: t) (a ++ b)).map (fun n => n + 1) := by
      simp [find, hcb]
    rw [hstep, ih2]
    cases find (backtick :: t) b <;> simp [Nat.add_assoc]

theorem find_self_append (pat x : List Char) : find pat (pat ++ x) = some 0 := by
  cases pat with
  | nil =>
    cases x with
    | nil => simp [find]
    | cons c l => simp [find, List.isPrefixOf]
  | cons p ps =>
    have hpre := isPrefixOf_append_self (p :: ps) x
    simp only [List.cons_append] at hpre ⊢
    simp [find, hpre]

theorem matchFence_decomp (opn pre body post : List Char)
    (hop : ∃ t, opn = backtick :: t)
    (hpre : ∀ c ∈ pre, c ≠ backtick) (hbody : ∀ c ∈ body, c ≠ backtick) :
    matchFence opn (pre ++ opn ++ body ++ fence ++ post) = some body := by
  have hfence : ∃ t, fence = backtick :: t := ⟨"``".toList, by decide⟩
  have h1 : find opn (pre ++ (opn ++ (body ++ (fence ++ post)))) = some pre.length := by
    rw [find_append_left opn pre _ hop hpre, find_self_append]
    simp
  have hdrop :
      (pre ++ (opn ++ (body ++ (fence ++ post)))).drop (pre.length + opn.length)
        = body ++ (fence ++ post) := by
    rw [show pre ++ (opn ++ (body ++ (fence ++ post)))
          = (pre ++ opn) ++ (body ++ (fence ++ post)) by simp,
        show pre.length + opn.length = (pre ++ opn).length by simp]
    exact List.drop_left _ _
  have h2 : find fence (body ++ (fence ++ post)) = some body.length := by
    rw [find_append_left fence body _ hfence hbody, find_self_append]
    simp
  have htake : (body ++ (fence ++ post)).take body.length = body := List.take_left _ _
  simp only [List.append_assoc]
  simp only [matchFence, h1, hdrop, h2, htake]

theorem matchFence_none (opn text : List Char) (h : find opn text = none) :
    matchFence opn text = none := by
  simp [matchFence, h]

/-! ## Helper lemmas about the polling loop -/

theorem pollLoop_done_of_ok (fetch : Nat → Except GenError Operation) :
    ∀ (fuel : Nat) (op0 : Operation) (i : Nat) (tr : List VeoAction) (op : Operation),
    pollLoop fetch fuel op0 i = (tr, some (Except.ok op)) → op.done = true := by
  intro fuel
  induction fuel with
  | zero =>
    intro op0 i tr op h
    by_cases h0 : op0.done
    · simp only [pollLoop, if_pos h0] at h
      have h2 : op0 = op := by simpa using congrArg Prod.snd h
      cases h2
      exact h0
    · simp [pollLoop, h0] at h
  | succ fuel ih =>
    intro op0 i tr op h
    by_cases h0 : op0.done
    · simp only [pollLoop, if_pos h0] at h
      have h2 : op0 = op := by simpa using congrArg Prod.snd h
      cases h2
      exact h0
    · cases hf : fetch i with
      | error e => simp [pollLoop, h0, hf] at h
      | ok next =>
        simp only [pollLoop, if_neg h0, hf] at h
        have h2 : (pollLoop fetch fuel next (i + 1)).2 = some (Except.ok op) := by
          simpa using congrArg Prod.snd h
        exact ih next (i + 1) (pollLoop fetch fuel next (i + 1)).1 op (by rw [← h2])

theorem pollLoop_pure (g : Nat → Operation) :
    ∀ (k fuel : Nat) (op0 : Operation) (i : Nat), k ≤ fuel →
    (∀ j, j < k → (opSeqFrom g op0 i j).done = false) →
    (opSeqFrom g op0 i k).done = true →
    pollLoop (fun n => Except.ok (g n)) fuel op0 i
      = ((List.replicate k sleepRefetch).flatten, some (Except.ok (opSeqFrom g op0 i k))) := by
  intro k
  induction k with
  | zero =>
    intro fuel op0 i _ _ hdone
    have h0 : op0.done = true := hdone
    cases fuel <;> simp [pollLoop, h0, opSeqFrom]
  | succ k ih =>
    intro fuel op0 i hle hlt hdone
    have h0 : op0.done = false := hlt 0 (Nat.succ_pos k)
    cases fuel with
    | zero => omega
    | succ fuel =>
      have hdone2 : (opSeqFrom g (g i) (i + 1) k).done = true := hdone
      have hlt2 : ∀ j, j < k → (opSeqFrom g (g i) (i + 1) j).done = false :=
        fun j hj => hlt (j + 1) (by omega)
      have hrec := ih fuel (g i) (i + 1) (by omega) hlt2 hdone2
      simp only [pollLoop, h0, Bool.false_eq_true, if_false, hrec]
      simp [opSeqFrom, List.replicate_succ, sleepRefetch]

theorem pollLoop_err (g : Nat → Operation) (fetch : Nat → Except GenError Operation)
    (e : GenError) :
    ∀ (k fuel : Nat) (op0 : Operation) (i : Nat), k < fuel →
    (∀ j, j < k → fetch (i + j) = Except.ok (g (i + j))) →
    (∀ j, j ≤ k → (opSeqFrom g op0 i j).done = false) →
    fetch (i + k) = Except.error e →
    pollLoop fetch fuel op0 i
      = ((List.replicate (k + 1) sleepRefetch).flatten, some (Except.error e)) := by
  intro k
  induction k with
  | zero =>
    intro fuel op0 i hlt _ hnd herr
    have h0 : op0.done = false := hnd 0 (Nat.le_refl 0)
    have herr2 : fetch i = Except.error e := by simpa using herr
    cases fuel with
    | zero => omega
    | succ fuel => simp [pollLoop, h0, herr2, sleepRefetch]
  | succ k ih =>
    intro fuel op0 i hlt hok hnd herr
    have h0 : op0.done = false := hnd 0 (Nat.zero_le _)
    have hf0 : fetch i = Except.ok (g i) := by simpa using hok 0 (Nat.succ_pos k)
    cases fuel with
    | zero => omega
    | succ fuel =>
      have hok2 : ∀ j, j < k → fetch ((i + 1) + j) = Except.ok (g ((i + 1) + j)) := by
        intro j hj
        have := hok (j + 1) (by omega)
        simpa [Nat.add_assoc, Nat.add_comm 1 j] using this
      have hnd2 : ∀ j, j ≤ k → (opSeqFrom g (g i) (i + 1) j).done = false :=
        fun j hj => hnd (j + 1) (by omega)
      have herr2 : fetch ((i + 1) + k) = Except.error e := by
        have := herr
        simpa [Nat.add_assoc, Nat.add_comm 1 k] using this
      have hrec := ih fuel (g i) (i + 1) (by omega) hok2 hnd2 herr2
      simp only [pollLoop, h0, Bool.false_eq_true, if_false, hf0, hrec]
      simp [List.replicate_succ, sleepRefetch]

/-! ## Claim theorems -/

/-- Claim C1: for every request payload and primary model, a primary-tier
failure classified capability-unavailable (message contains 404 or
not found) causes exactly one secondary-tier call, with the identical
payload and the fixed secondary model, whose result - success, or an
error propagated with no further hop - is returned; any other primary
failure propagates unchanged with no secondary call issued. -/
theorem generateContentWithFallback_spec {α β : Type}
    (call : List Char → α → Except GenError β) (model : List Char) (params : α) :
    (∀ e, call model params = Except.error e → capabilityUnavailable e = true →
      generateContentWithFallback call model params
        = ([(model, params), (flashModel, params)], call flashModel params))
    ∧ (∀ e, call model params = Except.error e → capabilityUnavailable e = false →
      generateContentWithFallback call model params
        = ([(model, params)], Except.error e)) := by
  constructor
  · intro e he hcap
    simp [generateContentWithFallback, he, hcap]
  · intro e he hcap
    simp [generateContentWithFallback, he, hcap]

/-- Witness for the fallback-invoker theorem at a concrete endpoint:
an unavailable primary tier falls back to the flash tier and returns its
answer, while a quota error propagates unchanged after a single call. -/
theorem generateContentWithFallback_spec_witness :
    generateContentWithFallback fallbackCexCall proModel ()
      = ([(proModel, ()), (flashModel, ())], Except.ok 7)
    ∧ generateContentWithFallback fallbackQuotaCall proModel ()
      = ([(proModel, ())], Except.error errQuota) := by
  constructor
  · exact ((generateContentWithFallback_spec fallbackCexCall proModel ()).1
      err404 rfl (by decide)).trans rfl
  · exact (generateContentWithFallback_spec fallbackQuotaCall proModel ()).2
      errQuota rfl (by decide)

/-- Claim C5: whenever the fact-retrieval phase fails - the remote call
throws, or the unwrapped text does not parse as JSON - the function
returns the fixed 3-item default fact set with an empty searchContext.
The embedded function is total, so no failure escapes to the caller. -/
theorem getInterestingFacts_default_on_failure
    (remote : Except GenError GenResponse) (jsonParse : List Char → Option Json) :
    ((∃ e, remote = Except.error e) →
      getInterestingFacts remote jsonParse = defaultTopicFacts)
    ∧ (∀ resp, remote = Except.ok resp →
      jsonParse (cleanJsonText (textOrBrace resp.text)) = none →
      getInterestingFacts remote jsonParse = defaultTopicFacts) := by
  constructor
  · rintro ⟨e, rfl⟩
    simp [getInterestingFacts]
  · rintro resp rfl hp
    simp [getInterestingFacts, hp]

/-- Witness for the fact-retrieval default: a thrown remote call and an
unparsable response text both yield the default fact set. -/
theorem getInterestingFacts_default_on_failure_witness :
    getInterestingFacts (Except.error errQuota) emptyObjParse = defaultTopicFacts
    ∧ getInterestingFacts (Except.ok ⟨some "not json at all".toList⟩) (fun _ => none)
        = defaultTopicFacts := by
  constructor
  · exact (getInterestingFacts_default_on_failure _ _).1 ⟨errQuota, rfl⟩
  · exact (getInterestingFacts_default_on_failure _ _).2 _ rfl rfl

/-- Claim C9: a response whose unwrapped text parses is returned exactly
as parsed, with no shape validation - a value lacking the facts or
searchContext fields is passed through, not replaced by the default.
The default is substituted only when the remote call or the parse
throws. -/
theorem getInterestingFacts_no_validation
    (resp : GenResponse) (jsonParse : List Char → Option Json) (v : Json)
    (hp : jsonParse (cleanJsonText (textOrBrace resp.text)) = some v) :
    getInterestingFacts (Except.ok resp) jsonParse = v := by
  simp [getInterestingFacts, hp]

/-- Witness: a response with no text at all defaults to the bare-object
payload, which parses to an empty object and is returned unvalidated. -/
theorem getInterestingFacts_no_validation_witness :
    getInterestingFacts (Except.ok ⟨none⟩) emptyObjParse = Json.obj [] :=
  getInterestingFacts_no_validation ⟨none⟩ emptyObjParse (Json.obj []) rfl

/-- Claim C2 counterexample: a response whose single parsed item carries
correctAnswer 7 against 4 options is returned as-is by generateQuiz -
the out-of-range item is passed through, not excluded. -/
theorem generateQuiz_out_of_range_cex :
    generateQuiz (Except.ok ⟨some quizCexText.toList⟩) quizCexParse
      = Json.arr [quizCexItem]
    ∧ quizCorrectIndexInRange quizCexItem = false := by
  constructor
  · rfl
  · decide

/-- Claim C2 (amended): generateQuiz performs no local validation of
correctAnswer: every successfully parsed array is returned as-is, each
of its items included whether in range or not; an empty result arises
only from a thrown call or parse. -/
theorem generateQuiz_no_item_filtering
    (resp : GenResponse) (jsonParse : List Char → Option Json) (items : List Json)
    (hp : jsonParse (textOrBracket resp.text) = some (Json.arr items)) :
    generateQuiz (Except.ok resp) jsonParse = Json.arr items
    ∧ ∀ item ∈ items, ∃ returned,
        generateQuiz (Except.ok resp) jsonParse = Json.arr returned
        ∧ item ∈ returned := by
  have h : generateQuiz (Except.ok resp) jsonParse = Json.arr items := by
    simp [generateQuiz, hp]
  exact ⟨h, fun item hi => ⟨items, h, hi⟩⟩

/-- Witness for the amended quiz pass-through at the concrete
out-of-range response. -/
theorem generateQuiz_no_item_filtering_witness :
    generateQuiz (Except.ok ⟨some quizCexText.toList⟩) quizCexParse
      = Json.arr [quizCexItem] :=
  (generateQuiz_no_item_filtering ⟨some quizCexText.toList⟩ quizCexParse
    [quizCexItem] rfl).1

set_option maxRecDepth 20000 in
/-- Claim C3 counterexample: a response parsing to two well-formed items
is returned with exactly those two items - neither the empty list nor
five items. -/
theorem generateQuiz_count_cex :
    generateQuiz (Except.ok ⟨some quizTwoText.toList⟩) quizTwoParse
      = Json.arr [quizItemWf 1 0, quizItemWf 2 1]
    ∧ quizCorrectIndexInRange (quizItemWf 1 0) = true
    ∧ quizCorrectIndexInRange (quizItemWf 2 1) = true
    ∧ [quizItemWf 1 0, quizItemWf 2 1].length ≠ 0
    ∧ [quizItemWf 1 0, quizItemWf 2 1].length ≠ 5 := by
  refine ⟨rfl, by decide, by decide, by decide, by decide⟩

/-- Claim C3 (amended): generateQuiz enforces no item count: a response
parsing to an array of any length n is returned with exactly n items;
the empty list arises only from a thrown call or parse. -/
theorem generateQuiz_any_length
    (resp : GenResponse) (jsonParse : List Char → Option Json) (n : Nat) (item : Json)
    (hp : jsonParse (textOrBracket resp.text) = some (Json.arr (List.replicate n item))) :
    generateQuiz (Except.ok resp) jsonParse = Json.arr (List.replicate n item) := by
  simp [generateQuiz, hp]

set_option maxRecDepth 20000 in
/-- Witness for the amended quiz count behaviour at a concrete
two-item response. -/
theorem generateQuiz_any_length_witness :
    generateQuiz (Except.ok ⟨some quizRepText.toList⟩) quizRepParse
      = Json.arr (List.replicate 2 (quizItemWf 1 0)) :=
  generateQuiz_any_length ⟨some quizRepText.toList⟩ quizRepParse 2 (quizItemWf 1 0) rfl

/-- Claim C4 counterexample: on the fact-retrieval path, a fence
labelled with a different language tag (html) IS stripped by the second,
unlabeled-fence regex - the cleaned text is the fence content with the
tag folded in, not the whole text the claim requires for case (c). -/
theorem cleanJsonText_labeled_fence_cex :
    cleanJsonText "```html [1] ```".toList = "html [1] ".toList
    ∧ cleanJsonText "```html [1] ```".toList ≠ "```html [1] ```".toList := by
  constructor
  · rfl
  · decide

/-- Claim C4 (amended): extraction order on the fact-retrieval path:
(a) the content of the first json-labelled fence when one occurs;
(b) otherwise, when any fence occurs - labelled with another tag or
not - the text between the first pair of triple backticks, any language
tag being captured as part of the payload; (c) otherwise the entire
text is the bare payload. -/
theorem cleanJsonText_extraction_order :
    (∀ pre body post, (∀ c ∈ pre, c ≠ backtick) → (∀ c ∈ body, c ≠ backtick) →
      cleanJsonText (pre ++ jsonFenceOpen ++ body ++ fence ++ post) = body)
    ∧ (∀ pre inner post,
      find jsonFenceOpen (pre ++ fence ++ inner ++ fence ++ post) = none →
      (∀ c ∈ pre, c ≠ backtick) → (∀ c ∈ inner, c ≠ backtick) →
      cleanJsonText (pre ++ fence ++ inner ++ fence ++ post) = inner)
    ∧ (∀ t, find jsonFenceOpen t = none → find fence t = none →
      cleanJsonText t = t) := by
  refine ⟨?_, ?_, ?_⟩
  · intro pre body post hpre hbody
    have h := matchFence_decomp jsonFenceOpen pre body post
      ⟨"``json".toList, by decide⟩ hpre hbody
    simp only [List.append_assoc] at h
    simp [cleanJsonText, h]
  · intro pre inner post hnj hpre hinner
    have h := matchFence_decomp fence pre inner post
      ⟨"``".toList, by decide⟩ hpre hinner
    have hn := matchFence_none _ _ hnj
    simp only [List.append_assoc] at h hn
    simp [cleanJsonText, h, hn]
  · intro t h1 h2
    simp [cleanJsonText, matchFence_none _ _ h1, matchFence_none _ _ h2]

/-- Witness for the amended extraction order, exercising all three
cases at concrete texts. -/
theorem cleanJsonText_extraction_order_witness :
    cleanJsonText ("A ".toList ++ jsonFenceOpen ++ " 1 ".toList ++ fence ++ " B".toList)
      = " 1 ".toList
    ∧ cleanJsonText ("x ".toList ++ fence ++ "html 2 ".toList ++ fence ++ [])
      = "html 2 ".toList
    ∧ cleanJsonText "plain 3".toList = "plain 3".toList := by
  refine ⟨?_, ?_, ?_⟩
  · exact cleanJsonText_extraction_order.1 "A ".toList " 1 ".toList " B".toList
      (by decide) (by decide)
  · exact cleanJsonText_extraction_order.2.1 "x ".toList "html 2 ".toList []
      (by decide) (by decide) (by decide)
  · exact cleanJsonText_extraction_order.2.2 "plain 3".toList (by decide) (by decide)

/-- Claim C6: the simulator-source extraction returns the exact inner
content of the first html-labelled fence regardless of surrounding
prose, and an explicit empty (no code produced) result when no html
fence occurs. -/
theorem generateStudySimulator_extraction (resp : GenResponse) :
    (∀ pre body post,
      resp.text = some (pre ++ htmlFenceOpen ++ body ++ fence ++ post) →
      (∀ c ∈ pre, c ≠ backtick) → (∀ c ∈ body, c ≠ backtick) →
      generateStudySimulator (Except.ok resp) = Except.ok body)
    ∧ (∀ t, resp.text = some t → find htmlFenceOpen t = none →
      generateStudySimulator (Except.ok resp) = Except.ok []) := by
  constructor
  · intro pre body post ht hpre hbody
    have h := matchFence_decomp htmlFenceOpen pre body post
      ⟨"``html".toList, by decide⟩ hpre hbody
    simp only [List.append_assoc] at h
    simp [generateStudySimulator, ht, h]
  · intro t ht hn
    simp [generateStudySimulator, ht, matchFence_none _ _ hn]

/-- Witness for the simulator extraction: a fenced document inside
prose is returned exactly, and a fence-free response yields the empty
result. -/
theorem generateStudySimulator_extraction_witness :
    generateStudySimulator (Except.ok
        ⟨some ("ok ".toList ++ htmlFenceOpen ++ " BODY ".toList ++ fence ++ " tail".toList)⟩)
      = Except.ok " BODY ".toList
    ∧ generateStudySimulator (Except.ok ⟨some "no code produced".toList⟩)
      = Except.ok [] := by
  constructor
  · exact (generateStudySimulator_extraction _).1 "ok ".toList " BODY ".toList
      " tail".toList rfl (by decide) (by decide)
  · exact (generateStudySimulator_extraction _).2 "no code produced".toList rfl (by decide)

/-- Claim C7: the Analyzing request disables the web-search tool and
injects the summary into the system instruction exactly when the
pre-fetched summary is present and non-empty; when the summary is absent
or empty the web-search tool is enabled.  The tool list depends on the
summary alone, not on the other request inputs. -/
theorem analyzeStudyTopic_search_toggle
    (input : List Char) (mediaData : Option MediaData) (isVideoAnalysis : Bool)
    (searchContext : Option (List Char)) :
    (∀ s, searchContext = some s → s ≠ [] →
      (analyzeStudyTopicRequest input mediaData isVideoAnalysis searchContext).tools = []
      ∧ s <:+: (analyzeStudyTopicRequest input mediaData isVideoAnalysis
          searchContext).systemInstruction)
    ∧ (truthyOpt searchContext = false →
      (analyzeStudyTopicRequest input mediaData isVideoAnalysis searchContext).tools
        = [Tool.googleSearch])
    ∧ (∀ input2 mediaData2 isVideoAnalysis2,
      (analyzeStudyTopicRequest input mediaData isVideoAnalysis searchContext).tools
        = (analyzeStudyTopicRequest input2 mediaData2 isVideoAnalysis2 searchContext).tools) := by
  refine ⟨?_, ?_, ?_⟩
  · rintro s rfl hs
    have htr : truthyOpt (some s) = true := by
      cases s with
      | nil => exact absurd rfl hs
      | cons c l => simp [truthyOpt]
    constructor
    · simp [analyzeStudyTopicRequest, htr]
    · refine ⟨analyzeBase1 ++ ctxPre, ctxPost ++ analyzeBase2, ?_⟩
      simp [analyzeStudyTopicRequest, analyzeSystemPrompt, htr]
  · intro hf
    simp [analyzeStudyTopicRequest, hf]
  · intro input2 mediaData2 isVideoAnalysis2
    rfl

/-- Witness for the search toggle: a present non-empty summary disables
the tool and appears in the instruction; an absent summary enables it. -/
theorem analyzeStudyTopic_search_toggle_witness :
    (analyzeStudyTopicRequest "Photosynthesis".toList none false (some "ctx".toList)).tools = []
    ∧ "ctx".toList <:+: (analyzeStudyTopicRequest "Photosynthesis".toList none false
        (some "ctx".toList)).systemInstruction
    ∧ (analyzeStudyTopicRequest "Photosynthesis".toList none false none).tools
        = [Tool.googleSearch] := by
  have h1 := (analyzeStudyTopic_search_toggle "Photosynthesis".toList none false
    (some "ctx".toList)).1 "ctx".toList rfl (by decide)
  have h2 := (analyzeStudyTopic_search_toggle "Photosynthesis".toList none false
    none).2.1 rfl
  exact ⟨h1.1, h1.2, h2⟩

/-- Claim C8: the poller exits its loop only when the operation reports
done; each round of a run is a fixed 5000 ms sleep followed by one
status re-fetch; a run completing after k rounds returns the URI of the
first generated video when one is attached, and fails with the fatal
no-locator error when the completed operation carries none. -/
theorem generateVeoVideo_poll_contract :
    (∀ fetch fuel op0 i tr op,
      pollLoop fetch fuel op0 i = (tr, some (Except.ok op)) → op.done = true)
    ∧ (∀ (g : Nat → Operation) (op0 : Operation) (k fuel : Nat),
      (∀ j, j < k → (opSeqFrom g op0 0 j).done = false) →
      (opSeqFrom g op0 0 k).done = true → k ≤ fuel →
      pollLoop (fun n => Except.ok (g n)) fuel op0 0
        = ((List.replicate k sleepRefetch).flatten,
           some (Except.ok (opSeqFrom g op0 0 k)))
      ∧ (∀ u, extractVideoUri (opSeqFrom g op0 0 k) = some u → u ≠ [] →
        generateVeoVideo (Except.ok op0) (fun n => Except.ok (g n)) fuel
          = ((List.replicate k sleepRefetch).flatten, some (Except.ok u)))
      ∧ (extractVideoUri (opSeqFrom g op0 0 k) = none →
        generateVeoVideo (Except.ok op0) (fun n => Except.ok (g n)) fuel
          = ((List.replicate k sleepRefetch).flatten,
             some (Except.error errNoUri)))) := by
  constructor
  · intro fetch fuel op0 i tr op h
    exact pollLoop_done_of_ok fetch fuel op0 i tr op h
  · intro g op0 k fuel hlt hdone hfuel
    have hp := pollLoop_pure g k fuel op0 0 hfuel hlt hdone
    refine ⟨hp, ?_, ?_⟩
    · intro u hu hne
      have hne2 : u.isEmpty = false := by
        cases u with
        | nil => exact absurd rfl hne
        | cons a l => rfl
      simp [generateVeoVideo, veoTryBody, hp, veoFinish, hu, hne2, hne, Except.bind]
    · intro hu
      have hcap : capabilityUnavailable errNoUri = false := by decide
      simp [generateVeoVideo, veoTryBody, hp, veoFinish, hu, translateVeoError,
        hcap, Except.bind]

/-- Witness for the poller contract: starting from a pending operation
whose first re-fetch reports done with a locator, the run performs one
sleep-and-refetch round and returns the locator. -/
theorem generateVeoVideo_poll_contract_witness :
    generateVeoVideo (Except.ok opPending) (fun n => Except.ok (veoG n)) 1
      = ([VeoAction.sleep 5000, VeoAction.refetch],
         some (Except.ok "https://video.example/v1".toList)) := by
  have h := (generateVeoVideo_poll_contract.2 veoG opPending 1 1
    (by
      intro j hj
      have hj0 : j = 0 := by omega
      subst hj0
      rfl)
    rfl (by decide)).2.1 "https://video.example/v1".toList rfl (by decide)
  simpa [sleepRefetch] using h

/-- Claim C10: the capability-unavailable translation wraps the whole
submit-poll-extract sequence: a 404 or not-found error raised by the
initial submission or by any polling-round re-fetch is replaced by the
distinct Veo-not-available error, while the missing-locator error
carries neither signal and propagates unchanged through the catch. -/
theorem generateVeoVideo_error_translation :
    (∀ fetch fuel e, capabilityUnavailable e = true →
      generateVeoVideo (Except.error e) fetch fuel
        = ([], some (Except.error veoNotAvailableError)))
    ∧ (∀ (g : Nat → Operation) fetch (op0 : Operation) (k fuel : Nat) e,
      (∀ j, j < k → fetch j = Except.ok (g j)) →
      (∀ j, j ≤ k → (opSeqFrom g op0 0 j).done = false) →
      fetch k = Except.error e → capabilityUnavailable e = true → k < fuel →
      generateVeoVideo (Except.ok op0) fetch fuel
        = ((List.replicate (k + 1) sleepRefetch).flatten,
           some (Except.error veoNotAvailableError)))
    ∧ capabilityUnavailable errNoUri = false
    ∧ (∀ fetch fuel (op : Operation), op.done = true → extractVideoUri op = none →
      generateVeoVideo (Except.ok op) fetch fuel
        = ([], some (Except.error errNoUri))) := by
  refine ⟨?_, ?_, by decide, ?_⟩
  · intro fetch fuel e hcap
    simp [generateVeoVideo, veoTryBody, translateVeoError, hcap]
  · intro g fetch op0 k fuel e hok hnd herr hcap hfuel
    have hok2 : ∀ j, j < k → fetch (0 + j) = Except.ok (g (0 + j)) := by
      intro j hj
      simpa using hok j hj
    have herr2 : fetch (0 + k) = Except.error e := by simpa using herr
    have hp := pollLoop_err g fetch e k fuel op0 0 hfuel hok2 hnd herr2
    simp [generateVeoVideo, veoTryBody, hp, translateVeoError, hcap, Except.bind]
  · intro fetch fuel op hdone hu
    have hp : pollLoop fetch fuel op 0 = ([], some (Except.ok op)) := by
      cases fuel <;> simp [pollLoop, hdone]
    have hcap : capabilityUnavailable errNoUri = false := by decide
    simp [generateVeoVideo, veoTryBody, hp, veoFinish, hu, translateVeoError,
      hcap, Except.bind]

/-- Witness for the error translation: a capability-unavailable
submission failure, a capability-unavailable failure thrown by the first
re-fetch, and a done operation without a locator, each at concrete
environments. -/
theorem generateVeoVideo_error_translation_witness :
    generateVeoVideo (Except.error err404) (fun _ => Except.ok opPending) 3
      = ([], some (Except.error veoNotAvailableError))
    ∧ generateVeoVideo (Except.ok opPending) (fun _ => Except.error err404) 1
      = ([VeoAction.sleep 5000, VeoAction.refetch],
         some (Except.error veoNotAvailableError))
    ∧ generateVeoVideo (Except.ok opDoneNoUri) (fun _ => Except.ok opPending) 2
      = ([], some (Except.error errNoUri)) := by
  refine ⟨?_, ?_, ?_⟩
  · exact generateVeoVideo_error_translation.1 _ 3 err404 (by decide)
  · have h := generateVeoVideo_error_translation.2.1 (fun _ => opPending)
      (fun _ => Except.error err404) opPending 0 1 err404
      (by
        intro j hj
        exact absurd hj (Nat.not_lt_zero j))
      (by
        intro j hj
        have hj0 : j = 0 := by omega
        subst hj0
        rfl)
      rfl (by decide) (by decide)
    simpa [sleepRefetch] using h
  · exact generateVeoVideo_error_translation.2.2.2 _ 2 opDoneNoUri rfl rfl

end StudySim
